import Mathlib

/-!
Verification development for the `tweetdb` ingestion pipeline
(`src/tweetdb/tweetdb.py`).

Modelling conventions:
* Python strings are lists of Unicode codepoints (`List Nat`); `strCodes`
  turns a Lean string literal into that representation.
* `str.lower`/`str.upper` are modelled on the ASCII range (`pyLower`,
  `pyUpper`); the regular expressions of `tweet_words` only accept ASCII
  words, so this does not change which words survive the final filter.
* Python's `\s` class is modelled by the six ASCII whitespace characters.
* The regex substitutions of `tweet_words` (`re.sub`) are modelled as
  left-to-right scanners: at each position the (nonempty) pattern is tried,
  on success the match is replaced and scanning resumes after the match,
  otherwise one character is emitted.  Each scanner carries a fuel argument
  that starts at the length of the input; every step consumes at least one
  input character, so the fuel never runs out on the initial call.
* The relational store is a record of row lists; autoincrement ids are the
  `nextId` counters of the lexicon states.
* Timestamps (`datetime.now`, `total_seconds`) are integers supplied as
  explicit `now` arguments (no claim depends on fractional seconds), and
  geo coordinates are integers standing for the numeric payload; emitted
  rates are exact rationals.
-/

/-- Codepoint of a character. -/
def charCode (c : Char) : Nat := c.toNat

/-- A Python string as its list of codepoints. -/
def strCodes (s : String) : List Nat := s.data.map (fun c => c.toNat)

/-- `str.lower`, ASCII range (tweetdb.py line 123 `text.lower()`). -/
def pyLower (n : Nat) : Nat := if 65 ≤ n ∧ n ≤ 90 then n + 32 else n

/-- `str.upper`, ASCII range (used by `s.upper()` in the consumer's
language test, line 273). -/
def pyUpper (n : Nat) : Nat := if 97 ≤ n ∧ n ≤ 122 then n - 32 else n

/-- Python's `\s` on the ASCII range: space, tab, newline, carriage
return, vertical tab, form feed. -/
def isPySpace (n : Nat) : Bool :=
  n == 32 || n == 9 || n == 10 || n == 13 || n == 11 || n == 12

/-- Length of the maximal leading run of non-whitespace characters
(the greedy `[^\s]+` with nothing after it). -/
def nonSpaceLen (l : List Nat) : Nat :=
  (l.takeWhile (fun c => !isPySpace c)).length

/-- Number of characters consumed by the pattern
`((www\.[^\s]+)|(https?://[^\s]+))` (line 126) when it matches at the
head of `l`; `none` when it does not match there.  The three prefixes
are mutually exclusive, so the alternation order of the regex does not
matter. -/
def matchUrlLen (l : List Nat) : Option Nat :=
  if (strCodes "www.").isPrefixOf l then
    if nonSpaceLen (l.drop 4) = 0 then none else some (4 + nonSpaceLen (l.drop 4))
  else if (strCodes "https://").isPrefixOf l then
    if nonSpaceLen (l.drop 8) = 0 then none else some (8 + nonSpaceLen (l.drop 8))
  else if (strCodes "http://").isPrefixOf l then
    if nonSpaceLen (l.drop 7) = 0 then none else some (7 + nonSpaceLen (l.drop 7))
  else none

/-- Number of characters consumed by `@[^\s]+` (line 129) at the head of
`l`, if it matches there. -/
def matchMentionLen (l : List Nat) : Option Nat :=
  match l with
  | [] => none
  | c :: rest =>
    if c == charCode '@' then
      if nonSpaceLen rest = 0 then none else some (1 + nonSpaceLen rest)
    else none

/-- Scanner for `re.sub('((www\.[^\s]+)|(https?://[^\s]+))', '', text)`. -/
def subUrlF : Nat → List Nat → List Nat
  | 0, l => l
  | fuel + 1, l =>
    match matchUrlLen l with
    | some n => subUrlF fuel (l.drop n)
    | none =>
      match l with
      | [] => []
      | c :: rest => c :: subUrlF fuel rest

/-- `re.sub` of the URL pattern (line 126). -/
def subUrl (l : List Nat) : List Nat := subUrlF l.length l

/-- Scanner for `re.sub('@[^\s]+', '', text)`. -/
def subMentionF : Nat → List Nat → List Nat
  | 0, l => l
  | fuel + 1, l =>
    match matchMentionLen l with
    | some n => subMentionF fuel (l.drop n)
    | none =>
      match l with
      | [] => []
      | c :: rest => c :: subMentionF fuel rest

/-- `re.sub` of the mention pattern (line 129). -/
def subMention (l : List Nat) : List Nat := subMentionF l.length l

/-- Length of the maximal leading whitespace run, `none` if empty. -/
def matchSpaceLen (l : List Nat) : Option Nat :=
  if (l.takeWhile isPySpace).length = 0 then none
  else some (l.takeWhile isPySpace).length

/-- Scanner for `re.sub('[\s]+', ' ', text)` (line 132): every maximal
whitespace run becomes a single space. -/
def collapseWsF : Nat → List Nat → List Nat
  | 0, l => l
  | fuel + 1, l =>
    match matchSpaceLen l with
    | some n => charCode ' ' :: collapseWsF fuel (l.drop n)
    | none =>
      match l with
      | [] => []
      | c :: rest => c :: collapseWsF fuel rest

/-- `re.sub` of the whitespace pattern (line 132). -/
def collapseWs (l : List Nat) : List Nat := collapseWsF l.length l

/-- Scanner for `re.sub(r'#([^\s]+)', r'\1', text)` (line 135): a `#`
followed by a nonempty non-whitespace run is replaced by that run (one
`#` removed); the emitted text is not rescanned. -/
def subHashF : Nat → List Nat → List Nat
  | 0, l => l
  | _ + 1, [] => []
  | fuel + 1, c :: rest =>
    if c == charCode '#' then
      if nonSpaceLen rest = 0 then c :: subHashF fuel rest
      else
        rest.takeWhile (fun x => !isPySpace x) ++
          subHashF fuel (rest.drop (nonSpaceLen rest))
    else c :: subHashF fuel rest

/-- `re.sub` of the hashtag pattern (line 135). -/
def subHash (l : List Nat) : List Nat := subHashF l.length l

/-- `str.strip(chars)`: remove the characters of `cs` from both ends. -/
def stripSet (cs : List Nat) (l : List Nat) : List Nat :=
  ((l.dropWhile (fun c => cs.contains c)).reverse.dropWhile
    (fun c => cs.contains c)).reverse

/-- The characters stripped from the whole text (line 138): single quote,
double quote. -/
def quoteSet : List Nat := [39, 34]

/-- The characters stripped from each word (line 144): single quote,
double quote, question mark, comma, period, exclamation mark, semicolon,
colon. -/
def wordStripSet : List Nat := [39, 34, 63, 44, 46, 33, 59, 58]

/-- `str.split()` (line 141): split on maximal whitespace runs, ignoring
leading/trailing whitespace.  Fuel-driven: each emitted word consumes at
least one input character. -/
def pySplitF : Nat → List Nat → List (List Nat)
  | 0, _ => []
  | fuel + 1, l =>
    match l.dropWhile isPySpace with
    | [] => []
    | c :: rest =>
      ((c :: rest).takeWhile (fun x => !isPySpace x)) ::
        pySplitF fuel ((c :: rest).dropWhile (fun x => !isPySpace x))

/-- `text.split()`. -/
def pySplit (l : List Nat) : List (List Nat) := pySplitF l.length l

/-- `[a-zA-Z]` on a codepoint. -/
def isAsciiLetter (n : Nat) : Bool :=
  decide ((97 ≤ n ∧ n ≤ 122) ∨ (65 ≤ n ∧ n ≤ 90))

/-- `[0-9]` on a codepoint. -/
def isAsciiDigit (n : Nat) : Bool := decide (48 ≤ n ∧ n ≤ 57)

/-- `re.search(r"^[a-zA-Z][a-zA-Z0-9]*$", word) is not None`
(line 146). -/
def wordRegexOk : List Nat → Bool
  | [] => false
  | c :: cs => isAsciiLetter c && cs.all (fun d => isAsciiLetter d || isAsciiDigit d)

/-- `tweet_words` (tweetdb.py lines 121-154): lowercase, strip URLs,
strip mentions, collapse whitespace, unhash hashtags, strip quotes,
split, strip per-word punctuation, keep words matching
`^[a-zA-Z][a-zA-Z0-9]*$` of length at least 3. -/
def tweet_words (text : List Nat) : List (List Nat) :=
  let t1 := text.map pyLower
  let t2 := subUrl t1
  let t3 := subMention t2
  let t4 := collapseWs t3
  let t5 := subHash t4
  let t6 := stripSet quoteSet t5
  ((pySplit t6).map (fun w => stripSet wordStripSet w)).filter
    (fun w => wordRegexOk w && decide (3 ≤ w.length))

example : tweet_words (strCodes "Abc de!") = [strCodes "abc"] := by decide

example : tweet_words (strCodes "Visit www.Foo.com @Bob #Tags ok4u x?") =
    [strCodes "visit", strCodes "tags", strCodes "ok4u"] := by decide

example : tweet_words (strCodes "a#b http://x.y czw2,") =
    [strCodes "czw2"] := by decide

/-!
## Data model

Row records mirror the SQLAlchemy column lists of tweetdb.py
(lines 396-630).  Autoincrement surrogate primary keys (`hashid`,
`id`, `mediaid`, `urlid`, `mentionid`, `geoid`) are represented by row
position and omitted; the lexicon ids, which other rows reference, are
kept explicitly with a `nextId` autoincrement counter.
-/

/-- One lexicon table (`HashtagLexicon` or `TweetLexicon`): rows of
(id, unique text) plus the autoincrement counter. -/
structure LexState where
  rows : List (Nat × List Nat)
  nextId : Nat
deriving DecidableEq

/-- `SELECT ... WHERE text == t` followed by `.one()`: the id of the row
holding `t`, if any (text is unique, so at most one row matches). -/
def lexLookup (t : List Nat) (st : LexState) : Option Nat :=
  (st.rows.find? (fun r => r.2 == t)).map (fun r => r.1)

/-- `session.merge` + `session.flush` of a fresh lexicon row: the
storage layer's uniqueness constraint on the text column rejects the
insert (IntegrityError) when a row with this text is already committed;
otherwise the row is inserted and receives the next autoincrement id. -/
def lexInsert (t : List Nat) (st : LexState) : Except Unit (Nat × LexState) :=
  if st.rows.any (fun r => r.2 == t) then Except.error ()
  else Except.ok (st.nextId, ⟨st.rows ++ [(st.nextId, t)], st.nextId + 1⟩)

/-- The lookup/insert protocol of `Hashtag.__init__` (lines 405-417):
query the lexicon; on `NoResultFound` insert a new row.  An
IntegrityError of the insert is not caught there and propagates.
`st0` is the state visible to the lookup, `st1` the committed state the
insert's constraint is checked against; a sequential caller passes the
same state twice. -/
def Hashtag_lookup_insert (t : List Nat) (st0 st1 : LexState) :
    Except Unit (Nat × LexState) :=
  match lexLookup t st0 with
  | some i => Except.ok (i, st1)
  | none => lexInsert t st1

/-- The lookup/insert of `TweetWord.__init__` (lines 450-470).  The
`while not jobdone` body unconditionally ends with `jobdone = True`, so
exactly one iteration runs; an IntegrityError of the flush is answered
by `session.rollback()` and `pass`, after which the loop exits and
`self.wordid` is read from the merged-but-rolled-back `TweetLexicon`
object, whose id attribute is `None` (`none` here).  Same two-state
convention as `Hashtag_lookup_insert`. -/
def TweetWord_lookup_insert (w : List Nat) (st0 st1 : LexState) :
    Option Nat × LexState :=
  match lexLookup w st0 with
  | some i => (some i, st1)
  | none =>
    match lexInsert w st1 with
    | Except.ok (i, st') => (some i, st')
    | Except.error _ => (none, st1)

/-- Get-or-create on a lexicon, the common sequential result of both
interners (see `Hashtag_lookup_insert_seq` and
`TweetWord_lookup_insert_seq` below). -/
def lexGetOrCreate (t : List Nat) (st : LexState) : Nat × LexState :=
  match lexLookup t st with
  | some i => (i, st)
  | none => (st.nextId, ⟨st.rows ++ [(st.nextId, t)], st.nextId + 1⟩)

/-- `User` table columns (lines 585-602). -/
structure UserRow where
  userid : Nat
  username : List Nat
  name : List Nat
  location : List Nat
  description : List Nat
  numfollowers : Nat
  numfriends : Nat
  numtweets : Nat
  createdat : ℤ
  timezone : List Nat
  geoloc : Bool
  lastupdate : ℤ
  verified : Bool
deriving DecidableEq

/-- `Tweet` table columns (lines 551-568).  `place` is declared in the
schema but never assigned by `Tweet.__init__`, hence `Option`. -/
structure TweetRow where
  tweetid : Nat
  userid : Nat
  text : List Nat
  place : Option (List Nat)
  rtcount : Nat
  fvcount : Nat
  lang : List Nat
  date : ℤ
  source : List Nat
deriving DecidableEq

/-- `Hashtag` occurrence row (lines 396-403). -/
structure HashtagRow where
  tweetid : Nat
  hashtagid : Nat
deriving DecidableEq

/-- `TweetWord` occurrence row (lines 442-448).  The `wordid` column is
nullable (no `nullable=False`), and `TweetWord.__init__` leaves it
`None` when its insert loses a race (see `TweetWord_lookup_insert`). -/
structure TweetWordRow where
  tweetid : Nat
  wordid : Option Nat
deriving DecidableEq

/-- `Mention` row (lines 521-533). -/
structure MentionRow where
  tweetid : Nat
  source : Nat
  target : Nat
deriving DecidableEq

/-- `URLData` row (lines 508-518); `url` holds `url['expanded_url']`. -/
structure URLRow where
  tweetid : Nat
  url : List Nat
deriving DecidableEq

/-- `Geotag` row (lines 536-548). -/
structure GeotagRow where
  tweetid : Nat
  latitude : ℤ
  longitude : ℤ
deriving DecidableEq

/-- `Media` row (lines 473-505).  `url` is the media entity's
`media_url_https`; the binary fetch over HTTPS and the blob/file layout
are external collaborators (spec scope) and are not modelled. -/
structure MediaRow where
  tweetid : Nat
  idx : Nat
  url : List Nat
deriving DecidableEq

/-- The whole relational store. -/
structure DB where
  users : List UserRow
  tweets : List TweetRow
  hashtags : List HashtagRow
  hashtagLexicon : LexState
  tweetWords : List TweetWordRow
  tweetLexicon : LexState
  mentions : List MentionRow
  urls : List URLRow
  geotags : List GeotagRow
  media : List MediaRow
deriving DecidableEq

/-- The empty store. -/
def emptyDB : DB :=
  { users := [], tweets := [], hashtags := [], hashtagLexicon := ⟨[], 0⟩,
    tweetWords := [], tweetLexicon := ⟨[], 0⟩, mentions := [], urls := [],
    geotags := [], media := [] }

/-- The author descriptor carried by a status (the tweepy user object
fields read by `User.__init__` / `User.update`). -/
structure Author where
  id : Nat
  screen_name : List Nat
  name : List Nat
  location : List Nat
  description : List Nat
  followers_count : Nat
  friends_count : Nat
  statuses_count : Nat
  created_at : ℤ
  time_zone : List Nat
  geo_enabled : Bool
  verified : Bool
deriving DecidableEq

/-- A status from the feed: the tweepy fields read by the persistence
code.  `hashtags` holds the entity texts (`tag['text']`, `#` already
absent as delivered by the platform); `mentions` the mentioned user ids;
`urls` the expanded URLs; `media` is `some` exactly when
`'media' in tweet.entities`. -/
structure Status where
  id : Nat
  author : Author
  text : List Nat
  lang : List Nat
  created_at : ℤ
  source : List Nat
  retweet_count : Nat
  favorite_count : Nat
  hashtags : List (List Nat)
  mentions : List Nat
  urls : List (List Nat)
  geo : Option (ℤ × ℤ)
  media : Option (List (List Nat))
deriving DecidableEq

/-- `User.__init__` (lines 604-617); `now` models `dt.now()`. -/
def userRowOf (now : ℤ) (a : Author) : UserRow :=
  { userid := a.id, username := a.screen_name, name := a.name,
    location := a.location, description := a.description,
    numfollowers := a.followers_count, numfriends := a.friends_count,
    numtweets := a.statuses_count, createdat := a.created_at,
    timezone := a.time_zone, geoloc := a.geo_enabled,
    lastupdate := now, verified := a.verified }

/-- `User.update` (lines 619-630): overwrite the mutable profile fields;
`userid` and `createdat` are untouched. -/
def updateUserRow (now : ℤ) (a : Author) (r : UserRow) : UserRow :=
  { r with
    username := a.screen_name
    name := a.name
    location := a.location
    description := a.description
    numfollowers := a.followers_count
    numfriends := a.friends_count
    numtweets := a.statuses_count
    timezone := a.time_zone
    geoloc := a.geo_enabled
    lastupdate := now
    verified := a.verified }

/-- `Tweet.__init__` (lines 570-578). -/
def tweetRowOf (tw : Status) : TweetRow :=
  { tweetid := tw.id, userid := tw.author.id, text := tw.text,
    place := none, rtcount := tw.retweet_count,
    fvcount := tw.favorite_count, lang := tw.lang,
    date := tw.created_at, source := tw.source }

/-- The hashtag loop of `add_tweet` (lines 163-165): one
`Hashtag(tweet, tag, session)` + `session.merge` per entity, threading
the lexicon state left to right (sequential session, so the interner's
insert cannot hit the uniqueness constraint: see
`Hashtag_lookup_insert_seq`). -/
def addHashtags (tid : Nat) : List (List Nat) → LexState → List HashtagRow →
    LexState × List HashtagRow
  | [], st, rows => (st, rows)
  | t :: ts, st, rows =>
    let r := lexGetOrCreate t st
    addHashtags tid ts r.2 (rows ++ [⟨tid, r.1⟩])

/-- The word loop of `add_tweet` (lines 187-190): one
`TweetWord(tweet.id, word, session)` + `session.merge` per word of
`tweet_words(tweet.text)`, threading the lexicon state.  Sequentially
both lookup states coincide. -/
def addWords (tid : Nat) : List (List Nat) → LexState → List TweetWordRow →
    LexState × List TweetWordRow
  | [], st, rows => (st, rows)
  | w :: ws, st, rows =>
    let r := TweetWord_lookup_insert w st st
    addWords tid ws r.2 (rows ++ [⟨tid, r.1⟩])

/-- `add_tweet` (lines 157-199).  Fresh identity: insert the tweet row
and derive all child rows (hashtag occurrences, mentions, URLs, geotag,
media when enabled and present, word occurrences).  Known identity:
`Tweet.update` overwrites only `rtcount` and `fvcount` (lines 580-582)
and no child processing runs. -/
def add_tweet (tw : Status) (get_images : Bool) (db : DB) : DB :=
  if (db.tweets.filter (fun r => r.tweetid == tw.id)).length = 0 then
    let hr := addHashtags tw.id tw.hashtags db.hashtagLexicon db.hashtags
    let wr := addWords tw.id (tweet_words tw.text) db.tweetLexicon db.tweetWords
    { users := db.users,
      tweets := db.tweets ++ [tweetRowOf tw],
      hashtags := hr.2,
      hashtagLexicon := hr.1,
      tweetWords := wr.2,
      tweetLexicon := wr.1,
      mentions := db.mentions ++ tw.mentions.map (fun m => ⟨tw.id, tw.author.id, m⟩),
      urls := db.urls ++ tw.urls.map (fun u => ⟨tw.id, u⟩),
      geotags :=
        match tw.geo with
        | some c => db.geotags ++ [⟨tw.id, c.1, c.2⟩]
        | none => db.geotags,
      media :=
        match get_images, tw.media with
        | true, some ms => db.media ++ ms.enum.map (fun p => ⟨tw.id, p.1, p.2⟩)
        | _, _ => db.media }
  else
    { db with tweets := db.tweets.map (fun r =>
        if r.tweetid == tw.id then
          { r with rtcount := tw.retweet_count, fvcount := tw.favorite_count }
        else r) }

/-- `add_user` (lines 202-211) with the insert's commit exposed to a
concurrent winner: `db0` is the state the `count()` query sees, `db1`
the committed state the INSERT's primary-key constraint is checked
against (a sequential caller passes the same store twice).  `error`
models the IntegrityError raised at `session.commit()` when another
worker committed the same `userid` in between. -/
def add_user (now : ℤ) (a : Author) (db0 db1 : DB) : Except Unit DB :=
  if (db0.users.filter (fun r => r.userid == a.id)).length = 0 then
    if (db1.users.filter (fun r => r.userid == a.id)).length = 0 then
      Except.ok { db1 with users := db1.users ++ [userRowOf now a] }
    else Except.error ()
  else
    Except.ok { db1 with users := db1.users.map (fun r =>
      if r.userid == a.id then updateUserRow now a r else r) }

/-!
## Consumer and producer
-/

/-- The consumer's language test (lines 272-273):
`any(status.lang in s for s in self.languages) or
 any('ALL' in s.upper() for s in self.languages)` — Python `in` on
strings is substring containment. -/
def langPass (langs : List (List Nat)) (lang : List Nat) : Bool :=
  langs.any (fun s => decide (lang <:+: s)) ||
    langs.any (fun s => decide (strCodes "ALL" <:+: s.map pyUpper))

/-- One queue item of `tweet_consumer.run` (lines 269-291), with the
user-insert race exposed through `add_user`'s two stores: language
filter, then `add_user`; on success `add_tweet` runs sequentially on the
result and `n_tweets` is incremented; an IntegrityError is caught by
`except IntegrityError`, which increments `n_dupes` and rolls the
session back, leaving the committed store `db1` — the item is dropped
without any retry.  Returns (store, n_tweets, n_dupes).  The trailing
`self.status_update()` is modelled separately
(`tweet_consumer_status_update`). -/
def tweet_consumer_run_item (now : ℤ) (langs : List (List Nat))
    (get_images : Bool) (st : Status) (db0 db1 : DB) (nT nD : Nat) :
    DB × Nat × Nat :=
  if langPass langs st.lang then
    match add_user now st.author db0 db1 with
    | Except.ok db2 => (add_tweet st get_images db2, nT + 1, nD)
    | Except.error _ => (db1, nT, nD + 1)
  else (db1, nT, nD)

/-- Classification of what the persistence of one item raises inside the
worker's `try` (line 280): nothing, an IntegrityError, or any other
exception. -/
inductive PersistExc where
  | ok
  | integrity
  | fatal
deriving DecidableEq

/-- The exception handling of `tweet_consumer.run` around one dequeued
item, abstracted over what persistence raises: IntegrityError is caught
(`n_dupes += 1`, rollback) and the loop continues (`Except.ok`); any
other exception hits the bare `except: raise` and propagates out of the
`while True` loop, terminating the worker (`Except.error`). -/
def tweet_consumer_run_step (langs : List (List Nat)) (lang : List Nat)
    (exc : PersistExc) (nT nD : Nat) : Except Unit (Nat × Nat) :=
  if langPass langs lang then
    match exc with
    | PersistExc.ok => Except.ok (nT + 1, nD)
    | PersistExc.integrity => Except.ok (nT, nD + 1)
    | PersistExc.fatal => Except.error ()
  else Except.ok (nT, nD)

/-- Rate-reporter state of `tweet_consumer` (lines 265-267, 293-306). -/
structure ConsumerRS where
  last_time : ℤ
  n_tweets : Nat
  n_dupes : Nat
  log_interval : ℤ
deriving DecidableEq

/-- `tweet_consumer.status_update` (lines 293-306): when the elapsed
time exceeds `log_interval`, emit both rates (tweets/sec, dupes/sec),
reset both counters and the window start; otherwise change nothing.
The queue-depth log line reads the external queue and changes no state.
`now` models both `dt.now()` calls of the body. -/
def tweet_consumer_status_update (now : ℤ) (s : ConsumerRS) :
    ConsumerRS × Option (ℚ × ℚ) :=
  if s.log_interval < now - s.last_time then
    ({ s with last_time := now, n_tweets := 0, n_dupes := 0 },
      some ((s.n_tweets : ℚ) / ((now - s.last_time : ℤ) : ℚ),
            (s.n_dupes : ℚ) / ((now - s.last_time : ℤ) : ℚ)))
  else (s, none)

/-- State of `database_listener` (lines 384-389). -/
structure ListenerState where
  queue : List Status
  n_count : Nat
  last_time : ℤ
  log_interval : ℤ
deriving DecidableEq

/-- `database_listener.status_update` (lines 372-382): same rolling
window over the single counter `n_count`. -/
def database_listener_status_update (now : ℤ) (s : ListenerState) :
    ListenerState × Option ℚ :=
  if s.log_interval < now - s.last_time then
    ({ s with last_time := now, n_count := 0 },
      some ((s.n_count : ℚ) / ((now - s.last_time : ℤ) : ℚ)))
  else (s, none)

/-- `database_listener.on_status` (lines 358-362): enqueue the status,
increment the single counter, run the rate reporter.  There is no
language test and no second counter. -/
def on_status (st : Status) (now : ℤ) (s : ListenerState) :
    ListenerState × Option ℚ :=
  database_listener_status_update now
    { s with queue := s.queue ++ [st], n_count := s.n_count + 1 }

/-- A tweet row for this identity exists. -/
def hasTweet (db : DB) (i : Nat) : Prop :=
  (db.tweets.filter (fun r => r.tweetid == i)).length ≠ 0

/-!
## Concrete fixtures used to evaluate the model at specific inputs
-/

/-- A minimal author, platform user id 7. -/
def fxAuthor : Author :=
  { id := 7, screen_name := [], name := [], location := [],
    description := [], followers_count := 0, friends_count := 0,
    statuses_count := 0, created_at := 0, time_zone := [],
    geo_enabled := false, verified := false }

/-- A minimal English status, id 1, no entities, counters 5/6. -/
def fxStatus : Status :=
  { id := 1, author := fxAuthor, text := [], lang := strCodes "en",
    created_at := 0, source := [], retweet_count := 5,
    favorite_count := 6, hashtags := [], mentions := [], urls := [],
    geo := none, media := none }

/-- A status carrying the hashtag entity texts `Foo` and `foo`
(the platform delivers `tag['text']` without the `#`). -/
def fxStatusFoo : Status :=
  { fxStatus with id := 9, hashtags := [strCodes "Foo", strCodes "foo"] }

/-- A status in the disallowed language `xx`. -/
def fxStatusXX : Status :=
  { fxStatus with id := 3, lang := strCodes "xx" }

/-- The same author as observed by a losing worker: display name `B`. -/
def fxAuthorB : Author :=
  { fxAuthor with screen_name := strCodes "b", name := strCodes "B" }

/-- The losing worker's status whose author row already exists. -/
def fxStatusB : Status :=
  { fxStatus with id := 2, author := fxAuthorB }

/-- The winner's committed row for user 7, display name `A`. -/
def fxUserRowA : UserRow :=
  userRowOf 0 { fxAuthor with name := strCodes "A" }

/-- Store holding only the winner's user row. -/
def fxDBUserA : DB := { emptyDB with users := [fxUserRowA] }

/-- An existing tweet row with identity 1 and counters 0/0. -/
def fxTweetRow : TweetRow :=
  { tweetid := 1, userid := 7, text := [], place := none, rtcount := 0,
    fvcount := 0, lang := strCodes "en", date := 0, source := [] }

/-- Store holding only that tweet row. -/
def fxDBTweet : DB := { emptyDB with tweets := [fxTweetRow] }

/-- A fresh listener state with a 10-second log interval. -/
def fxListener : ListenerState :=
  { queue := [], n_count := 0, last_time := 0, log_interval := 10 }

/-!
## Lemmas: the regex-substitution scanners only remove characters
(or insert spaces), which carries the lowercasing of the input through
to the surviving words.
-/

theorem subUrlF_mem : ∀ (fuel : Nat) (l : List Nat) (c : Nat),
    c ∈ subUrlF fuel l → c ∈ l := by
  intro fuel
  induction fuel with
  | zero => intro l c h; simpa [subUrlF] using h
  | succ k ih =>
    intro l c h
    simp only [subUrlF] at h
    cases hm : matchUrlLen l with
    | some n =>
      rw [hm] at h
      exact List.drop_subset n l (ih _ _ h)
    | none =>
      rw [hm] at h
      cases l with
      | nil => simp at h
      | cons a rest =>
        rcases List.mem_cons.mp h with h1 | h2
        · exact h1 ▸ List.mem_cons_self a rest
        · exact List.mem_cons_of_mem a (ih _ _ h2)

theorem subUrl_mem (l : List Nat) (c : Nat) (h : c ∈ subUrl l) : c ∈ l :=
  subUrlF_mem _ _ _ h

theorem subMentionF_mem : ∀ (fuel : Nat) (l : List Nat) (c : Nat),
    c ∈ subMentionF fuel l → c ∈ l := by
  intro fuel
  induction fuel with
  | zero => intro l c h; simpa [subMentionF] using h
  | succ k ih =>
    intro l c h
    simp only [subMentionF] at h
    cases hm : matchMentionLen l with
    | some n =>
      rw [hm] at h
      exact List.drop_subset n l (ih _ _ h)
    | none =>
      rw [hm] at h
      cases l with
      | nil => simp at h
      | cons a rest =>
        rcases List.mem_cons.mp h with h1 | h2
        · exact h1 ▸ List.mem_cons_self a rest
        · exact List.mem_cons_of_mem a (ih _ _ h2)

theorem subMention_mem (l : List Nat) (c : Nat) (h : c ∈ subMention l) :
    c ∈ l := subMentionF_mem _ _ _ h

theorem collapseWsF_mem : ∀ (fuel : Nat) (l : List Nat) (c : Nat),
    c ∈ collapseWsF fuel l → c = charCode ' ' ∨ c ∈ l := by
  intro fuel
  induction fuel with
  | zero => intro l c h; right; simpa [collapseWsF] using h
  | succ k ih =>
    intro l c h
    simp only [collapseWsF] at h
    cases hm : matchSpaceLen l with
    | some n =>
      rw [hm] at h
      rcases List.mem_cons.mp h with h1 | h2
      · exact Or.inl h1
      · rcases ih _ _ h2 with h3 | h3
        · exact Or.inl h3
        · exact Or.inr (List.drop_subset n l h3)
    | none =>
      rw [hm] at h
      cases l with
      | nil => simp at h
      | cons a rest =>
        rcases List.mem_cons.mp h with h1 | h2
        · exact Or.inr (h1 ▸ List.mem_cons_self a rest)
        · rcases ih _ _ h2 with h3 | h3
          · exact Or.inl h3
          · exact Or.inr (List.mem_cons_of_mem a h3)

theorem collapseWs_mem (l : List Nat) (c : Nat) (h : c ∈ collapseWs l) :
    c = charCode ' ' ∨ c ∈ l := collapseWsF_mem _ _ _ h

theorem subHashF_mem : ∀ (fuel : Nat) (l : List Nat) (c : Nat),
    c ∈ subHashF fuel l → c ∈ l := by
  intro fuel
  induction fuel with
  | zero => intro l c h; simpa [subHashF] using h
  | succ k ih =>
    intro l c h
    cases l with
    | nil => simp [subHashF] at h
    | cons a rest =>
      simp only [subHashF] at h
      by_cases h1 : (a == charCode '#') = true
      · rw [if_pos h1] at h
        by_cases h2 : nonSpaceLen rest = 0
        · rw [if_pos h2] at h
          rcases List.mem_cons.mp h with h3 | h4
          · exact h3 ▸ List.mem_cons_self a rest
          · exact List.mem_cons_of_mem a (ih _ _ h4)
        · rw [if_neg h2] at h
          rcases List.mem_append.mp h with h3 | h4
          · exact List.mem_cons_of_mem a (List.takeWhile_subset _ h3)
          · exact List.mem_cons_of_mem a (List.drop_subset _ _ (ih _ _ h4))
      · rw [if_neg h1] at h
        rcases List.mem_cons.mp h with h3 | h4
        · exact h3 ▸ List.mem_cons_self a rest
        · exact List.mem_cons_of_mem a (ih _ _ h4)

theorem subHash_mem (l : List Nat) (c : Nat) (h : c ∈ subHash l) : c ∈ l :=
  subHashF_mem _ _ _ h

theorem stripSet_mem (cs l : List Nat) (c : Nat) (h : c ∈ stripSet cs l) :
    c ∈ l := by
  unfold stripSet at h
  rw [List.mem_reverse] at h
  have h2 := List.dropWhile_subset _ h
  rw [List.mem_reverse] at h2
  exact List.dropWhile_subset _ h2

theorem pySplitF_mem : ∀ (fuel : Nat) (l : List Nat) (w : List Nat),
    w ∈ pySplitF fuel l → ∀ c ∈ w, c ∈ l := by
  intro fuel
  induction fuel with
  | zero => intro l w h; simp [pySplitF] at h
  | succ k ih =>
    intro l w h c hc
    simp only [pySplitF] at h
    cases hp : l.dropWhile isPySpace with
    | nil => rw [hp] at h; simp at h
    | cons a rest =>
      rw [hp] at h
      rcases List.mem_cons.mp h with h1 | h2
      · have : c ∈ a :: rest := List.takeWhile_subset _ (h1 ▸ hc)
        exact List.dropWhile_subset isPySpace (hp ▸ this)
      · have : c ∈ a :: rest :=
          List.dropWhile_subset _ (ih _ _ h2 c hc)
        exact List.dropWhile_subset isPySpace (hp ▸ this)

theorem pySplit_mem (l : List Nat) (w : List Nat) (h : w ∈ pySplit l) :
    ∀ c ∈ w, c ∈ l := pySplitF_mem _ _ _ h

theorem pyLower_not_upper (n : Nat) :
    ¬ (65 ≤ pyLower n ∧ pyLower n ≤ 90) := by
  unfold pyLower
  split <;> omega

/-- Claim C10: `tweet_words` is a pure, deterministic function of its
input (it is a total Lean function with no state), and every word it
returns has length at least 3, starts with a lowercase ASCII letter, and
continues with only lowercase ASCII letters and digits — in particular
it contains no uppercase character, so URLs, mentions and
punctuation-only tokens never appear in the output. -/
theorem claim_C10 (text w : List Nat) (h : w ∈ tweet_words text) :
    3 ≤ w.length ∧
    (∃ c cs, w = c :: cs ∧ 97 ≤ c ∧ c ≤ 122 ∧
      ∀ d ∈ cs, (97 ≤ d ∧ d ≤ 122) ∨ (48 ≤ d ∧ d ≤ 57)) ∧
    ∀ d ∈ w, ¬ (65 ≤ d ∧ d ≤ 90) := by
  simp only [tweet_words] at h
  rw [List.mem_filter] at h
  obtain ⟨hmem, hpred⟩ := h
  rw [Bool.and_eq_true] at hpred
  obtain ⟨hok, hlen⟩ := hpred
  have hlen3 : 3 ≤ w.length := of_decide_eq_true hlen
  rw [List.mem_map] at hmem
  obtain ⟨w0, hw0, hws⟩ := hmem
  have hchar : ∀ d ∈ w, ¬ (65 ≤ d ∧ d ≤ 90) := by
    intro d hd
    have hd0 : d ∈ w0 := stripSet_mem _ _ _ (hws ▸ hd)
    have h1 := pySplit_mem _ _ hw0 d hd0
    have h2 := stripSet_mem _ _ _ h1
    have h3 := subHash_mem _ _ h2
    rcases collapseWs_mem _ _ h3 with h4 | h4
    · intro hcon
      rw [h4] at hcon
      simp [charCode] at hcon
    · have h5 := subMention_mem _ _ h4
      have h6 := subUrl_mem _ _ h5
      rw [List.mem_map] at h6
      obtain ⟨x, _, hx⟩ := h6
      exact hx ▸ pyLower_not_upper x
  refine ⟨hlen3, ?_, hchar⟩
  cases w with
  | nil => simp [wordRegexOk] at hok
  | cons c cs =>
    simp only [wordRegexOk, Bool.and_eq_true] at hok
    obtain ⟨hc, hcs⟩ := hok
    simp only [isAsciiLetter] at hc
    have hcp := of_decide_eq_true hc
    have hcnu := hchar c (List.mem_cons_self c cs)
    have hclow : 97 ≤ c ∧ c ≤ 122 := by
      rcases hcp with h' | h'
      · exact h'
      · exact absurd h' hcnu
    refine ⟨c, cs, rfl, hclow.1, hclow.2, ?_⟩
    intro d hd
    have hdnu := hchar d (List.mem_cons_of_mem c hd)
    rw [List.all_eq_true] at hcs
    have hdok := hcs d hd
    rw [Bool.or_eq_true] at hdok
    rcases hdok with h' | h'
    · simp only [isAsciiLetter] at h'
      rcases of_decide_eq_true h' with h'' | h''
      · exact Or.inl h''
      · exact absurd h'' hdnu
    · simp only [isAsciiDigit] at h'
      exact Or.inr (of_decide_eq_true h')

/-- Witness for C10 at a concrete input. -/
theorem claim_C10_witness :
    strCodes "abc" ∈ tweet_words (strCodes "Abc de!") ∧
    (3 ≤ (strCodes "abc").length ∧
      (∃ c cs, strCodes "abc" = c :: cs ∧ 97 ≤ c ∧ c ≤ 122 ∧
        ∀ d ∈ cs, (97 ≤ d ∧ d ≤ 122) ∨ (48 ≤ d ∧ d ≤ 57)) ∧
      ∀ d ∈ strCodes "abc", ¬ (65 ≤ d ∧ d ≤ 90)) :=
  ⟨by decide, claim_C10 (strCodes "Abc de!") (strCodes "abc") (by decide)⟩

/-!
## Lemmas: sequential behaviour of the two interners
-/

theorem lexAny_eq_false_of_lookup_none (t : List Nat) (st : LexState)
    (h : lexLookup t st = none) :
    st.rows.any (fun r => r.2 == t) = false := by
  unfold lexLookup at h
  rw [Option.map_eq_none'] at h
  rw [List.find?_eq_none] at h
  rw [List.any_eq_false]
  exact h

/-- Sequentially (no concurrent commit between lookup and flush) the
hashtag interner is exactly get-or-create. -/
theorem Hashtag_lookup_insert_seq (t : List Nat) (st : LexState) :
    Hashtag_lookup_insert t st st = Except.ok (lexGetOrCreate t st) := by
  unfold Hashtag_lookup_insert lexGetOrCreate
  cases h : lexLookup t st with
  | some i => rfl
  | none =>
    unfold lexInsert
    rw [lexAny_eq_false_of_lookup_none t st h]
    simp

/-- Sequentially the word interner is get-or-create and always yields a
non-null id. -/
theorem TweetWord_lookup_insert_seq (w : List Nat) (st : LexState) :
    TweetWord_lookup_insert w st st =
      (some (lexGetOrCreate w st).1, (lexGetOrCreate w st).2) := by
  unfold TweetWord_lookup_insert lexGetOrCreate
  cases h : lexLookup w st with
  | some i => rfl
  | none =>
    unfold lexInsert
    rw [lexAny_eq_false_of_lookup_none w st h]
    simp

/-- Claim C8: for a text never interned before (lookup finds nothing)
each interner creates exactly one new lexicon row, appending
`(nextId, text)`; for a text already interned each interner creates no
row, leaves the lexicon unchanged, and returns the existing row's id. -/
theorem claim_C8 (t : List Nat) (st : LexState) :
    match lexLookup t st with
    | some i =>
      TweetWord_lookup_insert t st st = (some i, st) ∧
      Hashtag_lookup_insert t st st = Except.ok (i, st)
    | none =>
      TweetWord_lookup_insert t st st =
        (some st.nextId, ⟨st.rows ++ [(st.nextId, t)], st.nextId + 1⟩) ∧
      Hashtag_lookup_insert t st st =
        Except.ok (st.nextId, ⟨st.rows ++ [(st.nextId, t)], st.nextId + 1⟩) := by
  cases h : lexLookup t st with
  | some i =>
    refine ⟨?_, ?_⟩ <;> simp [TweetWord_lookup_insert, Hashtag_lookup_insert, h]
  | none =>
    have hf := lexAny_eq_false_of_lookup_none t st h
    refine ⟨?_, ?_⟩ <;>
      simp [TweetWord_lookup_insert, Hashtag_lookup_insert, lexInsert, h, hf]

/-- Claim C1 (code bug, evaluated at the failing input): a worker interns
the word `abc`; its lookup sees no row, but a concurrent worker commits
`(0, abc)` before the flush, so the insert raises IntegrityError.
Because the loop body of `TweetWord.__init__` sets `jobdone = True`
unconditionally, the loop exits after this single iteration instead of
re-running the lookup, and the loser's `wordid` is `None` (`none`) —
not the winner's id 0, which a re-run of the lookup (second conjunct)
would have returned. -/
theorem claim_C1 :
    TweetWord_lookup_insert (strCodes "abc") ⟨[], 0⟩
      ⟨[(0, strCodes "abc")], 1⟩ = (none, ⟨[(0, strCodes "abc")], 1⟩) ∧
    lexLookup (strCodes "abc") ⟨[(0, strCodes "abc")], 1⟩ = some 0 ∧
    (none : Option Nat) ≠ some 0 := by decide

/-- Claim C2: re-observing a tweet whose identity is already stored
updates only the mutable counters of its tweet row; every child table
(hashtag occurrences, both lexicons, word occurrences, mentions, URLs,
geotags, media) and the user table are left entirely unchanged, and all
immutable tweet fields are preserved by the row update. -/
theorem claim_C2 (tw : Status) (g : Bool) (db : DB)
    (h : (db.tweets.filter (fun r => r.tweetid == tw.id)).length ≠ 0) :
    (add_tweet tw g db).users = db.users ∧
    (add_tweet tw g db).hashtags = db.hashtags ∧
    (add_tweet tw g db).hashtagLexicon = db.hashtagLexicon ∧
    (add_tweet tw g db).tweetWords = db.tweetWords ∧
    (add_tweet tw g db).tweetLexicon = db.tweetLexicon ∧
    (add_tweet tw g db).mentions = db.mentions ∧
    (add_tweet tw g db).urls = db.urls ∧
    (add_tweet tw g db).geotags = db.geotags ∧
    (add_tweet tw g db).media = db.media ∧
    (add_tweet tw g db).tweets = db.tweets.map (fun r =>
      if r.tweetid == tw.id then
        { r with rtcount := tw.retweet_count, fvcount := tw.favorite_count }
      else r) := by
  unfold add_tweet
  rw [if_neg h]
  exact ⟨rfl, rfl, rfl, rfl, rfl, rfl, rfl, rfl, rfl, rfl⟩

/-- Witness for C2: store `fxDBTweet` already holds identity 1 with
counters 0/0; re-observing `fxStatus` (counters 5/6) touches only those
counters. -/
theorem claim_C2_witness :
    (fxDBTweet.tweets.filter (fun r => r.tweetid == fxStatus.id)).length ≠ 0 ∧
    ((add_tweet fxStatus false fxDBTweet).users = fxDBTweet.users ∧
     (add_tweet fxStatus false fxDBTweet).hashtags = fxDBTweet.hashtags ∧
     (add_tweet fxStatus false fxDBTweet).hashtagLexicon = fxDBTweet.hashtagLexicon ∧
     (add_tweet fxStatus false fxDBTweet).tweetWords = fxDBTweet.tweetWords ∧
     (add_tweet fxStatus false fxDBTweet).tweetLexicon = fxDBTweet.tweetLexicon ∧
     (add_tweet fxStatus false fxDBTweet).mentions = fxDBTweet.mentions ∧
     (add_tweet fxStatus false fxDBTweet).urls = fxDBTweet.urls ∧
     (add_tweet fxStatus false fxDBTweet).geotags = fxDBTweet.geotags ∧
     (add_tweet fxStatus false fxDBTweet).media = fxDBTweet.media ∧
     (add_tweet fxStatus false fxDBTweet).tweets = fxDBTweet.tweets.map (fun r =>
       if r.tweetid == fxStatus.id then
         { r with rtcount := fxStatus.retweet_count,
                  fvcount := fxStatus.favorite_count }
       else r)) :=
  ⟨by decide, claim_C2 fxStatus false fxDBTweet (by decide)⟩

/-- Claim C9: each rate reporter (`tweet_consumer.status_update`,
`database_listener.status_update`) emits counter/elapsed for each of its
counters and resets all counters to zero and the window start to the
current time exactly when the elapsed time exceeds the configured
interval; otherwise it changes nothing and emits nothing.  Both are
total functions of their inputs: they never raise and never alter the
caller's control flow. -/
theorem claim_C9 (now : ℤ) (s : ConsumerRS) (nowL : ℤ) (sL : ListenerState) :
    tweet_consumer_status_update now s =
      (if s.log_interval < now - s.last_time then
        ({ last_time := now, n_tweets := 0, n_dupes := 0,
           log_interval := s.log_interval },
         some ((s.n_tweets : ℚ) / ((now - s.last_time : ℤ) : ℚ),
               (s.n_dupes : ℚ) / ((now - s.last_time : ℤ) : ℚ)))
      else (s, none)) ∧
    database_listener_status_update nowL sL =
      (if sL.log_interval < nowL - sL.last_time then
        ({ queue := sL.queue, n_count := 0, last_time := nowL,
           log_interval := sL.log_interval },
         some ((sL.n_count : ℚ) / ((nowL - sL.last_time : ℤ) : ℚ)))
      else (sL, none)) := by
  constructor
  · unfold tweet_consumer_status_update
    split <;> rfl
  · unfold database_listener_status_update
    split <;> rfl

/-- Counterexample to claim C3 as stated: persistence of an item in an
allowed language raises a non-IntegrityError exception; the worker does
not log-and-continue — the bare `except: raise` re-raises, the
exception leaves the `while True` loop (`Except.error`), and the worker
stops instead of processing the next queue entry. -/
theorem claim_C3_counterexample :
    tweet_consumer_run_step [strCodes "en"] (strCodes "en")
      PersistExc.fatal 0 0 = Except.error () ∧
    (Except.error () : Except Unit (Nat × Nat)) ≠ Except.ok (0, 0) ∧
    (Except.error () : Except Unit (Nat × Nat)) ≠ Except.ok (1, 0) ∧
    (Except.error () : Except Unit (Nat × Nat)) ≠ Except.ok (0, 1) :=
  ⟨by simp [tweet_consumer_run_step, langPass], by simp, by simp, by simp⟩

/-- Claim C3 as amended: for an item in an allowed language, an
IntegrityError is caught — the transaction is rolled back, the duplicate
counter is incremented, and the worker continues with the next entry;
but any other persistence failure propagates out of the worker's loop
and terminates that worker (it is not logged-and-discarded); successful
persistence increments the processed counter. -/
theorem claim_C3 (langs : List (List Nat)) (lang : List Nat) (nT nD : Nat)
    (h : langPass langs lang = true) :
    tweet_consumer_run_step langs lang PersistExc.integrity nT nD =
      Except.ok (nT, nD + 1) ∧
    tweet_consumer_run_step langs lang PersistExc.fatal nT nD =
      Except.error () ∧
    tweet_consumer_run_step langs lang PersistExc.ok nT nD =
      Except.ok (nT + 1, nD) := by
  refine ⟨?_, ?_, ?_⟩ <;> simp [tweet_consumer_run_step, h]

/-- Witness for C3 at a concrete allow-list (wildcard `ALL`). -/
theorem claim_C3_witness :
    langPass [strCodes "ALL"] (strCodes "xx") = true ∧
    (tweet_consumer_run_step [strCodes "ALL"] (strCodes "xx")
        PersistExc.integrity 4 5 = Except.ok (4, 6) ∧
     tweet_consumer_run_step [strCodes "ALL"] (strCodes "xx")
        PersistExc.fatal 4 5 = Except.error () ∧
     tweet_consumer_run_step [strCodes "ALL"] (strCodes "xx")
        PersistExc.ok 4 5 = Except.ok (5, 5)) :=
  ⟨by decide, claim_C3 [strCodes "ALL"] (strCodes "xx") 4 5 (by decide)⟩

/-- Counterexample to claim C4 as stated: user 7 already committed by a
concurrent winner (display name `A`); the loser processes a status whose
author carries name `B`.  The loser's IntegrityError is counted as a
duplicate and the item dropped — the stored row keeps the winner's
fields (`A`), it is not re-read and updated with the loser's mutable
fields (`B`) as the claim's "retried once as an update" requires. -/
theorem claim_C4_counterexample :
    tweet_consumer_run_item 0 [strCodes "en"] false fxStatusB
      emptyDB fxDBUserA 0 0 = (fxDBUserA, 0, 1) ∧
    fxDBUserA.users.map (fun r => r.name) = [strCodes "A"] ∧
    (tweet_consumer_run_item 0 [strCodes "en"] false fxStatusB
        emptyDB fxDBUserA 0 0).1.users ≠
      fxDBUserA.users.map (fun r =>
        if r.userid == fxStatusB.author.id then
          updateUserRow 0 fxStatusB.author r
        else r) := by
  decide

/-- Claim C4 as amended: when a User insert loses the race (the
`count()` check saw no row but a winner's row is committed by flush
time), the IntegrityError is caught in the consumer loop, the losing
transaction is rolled back leaving the committed store unchanged, the
duplicate counter is incremented (counted, not logged as an error), and
the item is discarded — there is no retry and no update of the existing
row's fields. -/
theorem claim_C4 (now : ℤ) (langs : List (List Nat)) (g : Bool)
    (st : Status) (db0 db1 : DB) (nT nD : Nat)
    (hl : langPass langs st.lang = true)
    (h0 : (db0.users.filter (fun r => r.userid == st.author.id)).length = 0)
    (h1 : (db1.users.filter (fun r => r.userid == st.author.id)).length ≠ 0) :
    tweet_consumer_run_item now langs g st db0 db1 nT nD = (db1, nT, nD + 1) := by
  unfold tweet_consumer_run_item add_user
  simp [hl, h0, h1]

/-- Witness for C4 at the concrete race fixture. -/
theorem claim_C4_witness :
    (langPass [strCodes "en"] fxStatusB.lang = true ∧
     (emptyDB.users.filter (fun r => r.userid == fxStatusB.author.id)).length = 0 ∧
     (fxDBUserA.users.filter (fun r => r.userid == fxStatusB.author.id)).length ≠ 0) ∧
    tweet_consumer_run_item 0 [strCodes "en"] false fxStatusB
      emptyDB fxDBUserA 3 4 = (fxDBUserA, 3, 5) :=
  ⟨⟨by decide, by decide, by decide⟩,
    claim_C4 0 [strCodes "en"] false fxStatusB emptyDB fxDBUserA 3 4
      (by decide) (by decide) (by decide)⟩

/-- Counterexample to claim C5 as stated: persisting a status whose
hashtag entities are `Foo` and `foo` (from `#Foo` and `#foo`) into an
empty store performs no case normalization: the lexicon ends with two
rows (a `Foo` row is present), and the two occurrence rows reference
the two distinct lexicon ids 0 and 1 — they do not both reference the
id of the single `foo` row. -/
theorem claim_C5_counterexample :
    (add_tweet fxStatusFoo false emptyDB).hashtagLexicon.rows.length = 2 ∧
    ((add_tweet fxStatusFoo false emptyDB).hashtagLexicon.rows.filter
      (fun r => r.2 == strCodes "Foo")).length = 1 ∧
    (add_tweet fxStatusFoo false emptyDB).hashtags.map (fun r => r.hashtagid) =
      [0, 1] ∧
    ¬ (∀ r ∈ (add_tweet fxStatusFoo false emptyDB).hashtags,
        r.hashtagid = 1) := by
  decide

/-- Claim C5 as amended: hashtag texts are interned verbatim, without
case normalization: the status with entity texts `Foo` and `foo`
creates two HashtagLexicon rows, `(0, Foo)` and `(1, foo)`, and two
Hashtag occurrence rows, one referencing each id. -/
theorem claim_C5 :
    (add_tweet fxStatusFoo false emptyDB).hashtagLexicon.rows =
      [(0, strCodes "Foo"), (1, strCodes "foo")] ∧
    (add_tweet fxStatusFoo false emptyDB).hashtags =
      [⟨fxStatusFoo.id, 0⟩, ⟨fxStatusFoo.id, 1⟩] := by
  decide

/-- Counterexample to claim C6 as stated: the producer-side listener has
no allow-list — a status whose language `xx` fails the configured
allow-list `[en]` is nevertheless enqueued, and the single counter is
incremented for it (there is no separate accepted-count). -/
theorem claim_C6_counterexample :
    langPass [strCodes "en"] (strCodes "xx") = false ∧
    (on_status fxStatusXX 0 fxListener).1.queue = [fxStatusXX] ∧
    (on_status fxStatusXX 0 fxListener).1.n_count = 1 := by
  decide

/-- Claim C6 as amended: `database_listener.on_status` enqueues every
received status unconditionally — the language allow-list is applied by
the consumers, not the producer (source comment, lines 244-249) — and
maintains a single total counter, incremented on every status (until the
rate reporter's window reset). -/
theorem claim_C6 (st : Status) (now : ℤ) (s : ListenerState)
    (h : now - s.last_time ≤ s.log_interval) :
    (on_status st now s).1.queue = s.queue ++ [st] ∧
    (on_status st now s).1.n_count = s.n_count + 1 := by
  unfold on_status database_listener_status_update
  constructor
  · split <;> rfl
  · split
    · next hc => exact absurd hc (not_lt.mpr h)
    · rfl

/-- Witness for C6 inside the reporting window. -/
theorem claim_C6_witness :
    (1 : ℤ) - fxListener.last_time ≤ fxListener.log_interval ∧
    ((on_status fxStatus 1 fxListener).1.queue = fxListener.queue ++ [fxStatus] ∧
     (on_status fxStatus 1 fxListener).1.n_count = fxListener.n_count + 1) :=
  ⟨by decide, claim_C6 fxStatus 1 fxListener (by decide)⟩

/-- `add_tweet` always leaves a row with the status's identity present. -/
theorem hasTweet_add_tweet (tw : Status) (g : Bool) (db : DB) :
    hasTweet (add_tweet tw g db) tw.id := by
  unfold hasTweet add_tweet
  by_cases hc : (db.tweets.filter (fun r => r.tweetid == tw.id)).length = 0
  · rw [if_pos hc]
    simp [List.filter_append, tweetRowOf]
  · rw [if_neg hc]
    have hcong : ∀ r ∈ db.tweets,
        ((if r.tweetid == tw.id then
            { r with rtcount := tw.retweet_count,
                     fvcount := tw.favorite_count }
          else r).tweetid == tw.id) = (r.tweetid == tw.id) := by
      intro r _
      by_cases hr : (r.tweetid == tw.id) = true <;> simp [hr]
    intro hlen
    apply hc
    rw [List.filter_map, List.length_map] at hlen
    simp only [Function.comp_def] at hlen
    rw [List.filter_congr hcong] at hlen
    exact hlen

/-- A sequential `add_user` (both stores identical, no race) never
raises, and it leaves the tweet table untouched. -/
theorem add_user_seq_tweets (now : ℤ) (a : Author) (db : DB) :
    ∃ db2, add_user now a db db = Except.ok db2 ∧ db2.tweets = db.tweets := by
  unfold add_user
  by_cases hc : (db.users.filter (fun r => r.userid == a.id)).length = 0
  · rw [if_pos hc, if_pos hc]
    exact ⟨_, rfl, rfl⟩
  · rw [if_neg hc]
    exact ⟨_, rfl, rfl⟩

/-- Claim C7: a dequeued status whose identity is not yet stored is
persisted if and only if its language passes the consumer's allow-list
test (substring containment, with the `ALL` wildcard); when the
language is disallowed the item is dropped: the store is unchanged (no
Tweet or User rows are created) and neither counter — in particular the
duplicate counter — is incremented. -/
theorem claim_C7 (now : ℤ) (langs : List (List Nat)) (g : Bool)
    (st : Status) (db : DB) (nT nD : Nat)
    (hfresh : ¬ hasTweet db st.id) :
    (hasTweet (tweet_consumer_run_item now langs g st db db nT nD).1 st.id ↔
      langPass langs st.lang = true) ∧
    (langPass langs st.lang = false →
      tweet_consumer_run_item now langs g st db db nT nD = (db, nT, nD)) := by
  cases hb : langPass langs st.lang with
  | true =>
    obtain ⟨db2, he, ht⟩ := add_user_seq_tweets now st.author db
    have hrun : tweet_consumer_run_item now langs g st db db nT nD =
        (add_tweet st g db2, nT + 1, nD) := by
      unfold tweet_consumer_run_item
      rw [hb, he]
      rfl
    constructor
    · constructor
      · intro _; rfl
      · intro _
        rw [hrun]
        exact hasTweet_add_tweet st g db2
    · intro hfalse
      simp at hfalse
  | false =>
    have hrun : tweet_consumer_run_item now langs g st db db nT nD =
        (db, nT, nD) := by
      unfold tweet_consumer_run_item
      rw [hb]
      rfl
    constructor
    · rw [hrun]
      constructor
      · intro hcon; exact absurd hcon hfresh
      · intro hcon; cases hcon
    · intro _; exact hrun

/-- Witness for C7: fresh identity 1, allow-list `[en]`, language `en`. -/
theorem claim_C7_witness :
    ¬ hasTweet emptyDB fxStatus.id ∧
    ((hasTweet (tweet_consumer_run_item 0 [strCodes "en"] false fxStatus
        emptyDB emptyDB 0 0).1 fxStatus.id ↔
      langPass [strCodes "en"] fxStatus.lang = true) ∧
     (langPass [strCodes "en"] fxStatus.lang = false →
      tweet_consumer_run_item 0 [strCodes "en"] false fxStatus
        emptyDB emptyDB 0 0 = (emptyDB, 0, 0))) :=
  ⟨by unfold hasTweet; decide,
    claim_C7 0 [strCodes "en"] false fxStatus emptyDB 0 0
      (by unfold hasTweet; decide)⟩
